import Mathlib

/-!
Verification of the gemstone catalog backend (`main.py`, `schemas.py`).

The development shallowly embeds the listing/query engine, the single-record
gateway, the seed operation and the admin login:

* Python strings are `String` (lists of characters); `str.lower()` is
  `Char.toLower` mapped over the characters (the data is ASCII, where the two
  coincide).
* The floating point `weight`/`price` fields are embedded as `ℚ`; every
  numeric literal of the source is exactly representable, and comparisons on
  them agree with the rational order.
* MongoDB is the external document store assumed by the spec to provide
  find/sort/skip/limit/count/insert/update primitives; it is modelled over a
  `List Gem` store: `find` is `List.filter`, `sort` a stable sort (§4.1 of the
  spec fixes tie-breaking to be stable w.r.t. the store's natural order),
  `skip`/`limit` are `drop`/`take`, `count_documents` a filtered length.
* The `$regex`/`$options: "i"` conditions built by `list_gems` are given
  semantics for the fragment the handler constructs: case-insensitive
  patterns of literal characters and the `.` wildcard, optionally anchored as
  `^...$`.  Theorems about the database path restrict the caller-supplied
  filter text to that fragment.
* `datetime.now(timezone.utc)` timestamps are abstract `Nat` instants passed
  in explicitly; BSON ObjectIds are their 24-hex-digit string forms.
-/

/-- `str.lower()` on the character list of a Python string. -/
def lowerL (l : List Char) : List Char := l.map Char.toLower

/-- Python `a.lower() == b.lower()`: case-insensitive full equality. -/
def pyLowerEq (a b : String) : Bool := lowerL a.data == lowerL b.data

/-- Python's substring containment `n in h` on character lists. -/
def containsSub (n : List Char) : List Char → Bool
  | [] => n.isEmpty
  | d :: t => n.isPrefixOf (d :: t) || containsSub n t

/-- Python `needle.lower() in hay.lower()`: case-insensitive substring test. -/
def pyIn (needle hay : String) : Bool :=
  containsSub (lowerL needle.data) (lowerL hay.data)

/-- Truthiness of an optional query parameter: Python's `if type:` /
`not search` treat both `None` and the empty string as absent. -/
def pyTruthy : Option String → Bool
  | none => false
  | some s => !s.isEmpty

/-- A stored gem document, fields as in `GemOut` / the sample dicts of
`_sample_gems`. `created_at`/`updated_at` are abstract instants; the sample
records carry none. -/
structure Gem where
  _id : String
  name : String
  type : String
  weight : ℚ
  price : ℚ
  description : String
  certification : Option String
  image : Option String
  gallery : List String
  created_at : Option Nat := none
  updated_at : Option Nat := none
deriving DecidableEq, Repr

/-- The static sample dataset returned by `_sample_gems()`. -/
def _sample_gems : List Gem :=
  [ { _id := "sg-1", name := "Imperial Ruby", type := "Ruby",
      weight := mkRat 25 10, price := 12500,
      description := "A vivid pigeon-blood ruby with exceptional clarity.",
      certification := some "GIA Certified",
      image := some "https://images.unsplash.com/photo-1603575449299-0b6b76f946e6?q=80&w=1200&auto=format&fit=crop",
      gallery :=
        [ "https://images.unsplash.com/photo-1603575449299-0b6b76f946e6?q=80&w=1200&auto=format&fit=crop",
          "https://images.unsplash.com/photo-1618220179428-22790b87a013?q=80&w=1200&auto=format&fit=crop" ] },
    { _id := "sg-2", name := "Azure Sapphire", type := "Sapphire",
      weight := mkRat 31 10, price := 9800,
      description := "Deep blue Ceylon sapphire with royal luster.",
      certification := some "GIA Certified",
      image := some "https://images.unsplash.com/photo-1603570404763-47b3a1e3898d?q=80&w=1200&auto=format&fit=crop",
      gallery := [] },
    { _id := "sg-3", name := "Verdant Emerald", type := "Emerald",
      weight := mkRat 42 10, price := 15200,
      description := "Colombian emerald with rich green saturation.",
      certification := some "IGI Certified",
      image := some "https://images.unsplash.com/photo-1615678857339-4e7a1d870265?q=80&w=1200&auto=format&fit=crop",
      gallery := [] },
    { _id := "sg-4", name := "Golden Topaz", type := "Topaz",
      weight := 5, price := 4200,
      description := "Honey gold topaz with brilliant facets.",
      certification := none,
      image := some "https://images.unsplash.com/photo-1560891780-87d88ab4add0?q=80&w=1200&auto=format&fit=crop",
      gallery := [] },
    { _id := "sg-5", name := "Amethyst Royale", type := "Amethyst",
      weight := mkRat 63 10, price := 2100,
      description := "Regal purple amethyst with superb clarity.",
      certification := none,
      image := some "https://images.unsplash.com/photo-1609250291995-9cfb68f2915e?q=80&w=1200&auto=format&fit=crop",
      gallery := [] },
    { _id := "sg-6", name := "Crystalline Diamond", type := "Diamond",
      weight := mkRat 13 10, price := 22500,
      description := "Brilliant-cut diamond with fire and scintillation.",
      certification := some "GIA Certified",
      image := some "https://images.unsplash.com/photo-1602526432604-c8586b197fd1?q=80&w=1200&auto=format&fit=crop",
      gallery := [] } ]

/-- The validated `sort_by` query parameter (`pattern="^(price|weight)$"`). -/
inductive SortBy where
  | price
  | weight
deriving DecidableEq, Repr

/-- The validated `sort_order` query parameter (`pattern="^(asc|desc)$"`). -/
inductive SortOrder where
  | asc
  | desc
deriving DecidableEq, Repr

/-- The sort key `lambda x: x[sort_by]` of the fallback path (also the field
the database path sorts on). -/
def sortKey : SortBy → Gem → ℚ
  | .price, g => g.price
  | .weight, g => g.weight

/-- Comparator for the chosen field and direction: `reverse = sort_order ==
"desc"` on the fallback path, `sort_dir = 1 if asc else -1` on the database
path. -/
def keyLE (sb : SortBy) (so : SortOrder) (a b : Gem) : Bool :=
  match so with
  | .asc => decide (sortKey sb a ≤ sortKey sb b)
  | .desc => decide (sortKey sb b ≤ sortKey sb a)

/-- Insert into a sorted list, after any element it ties with. -/
def insortGem (le : Gem → Gem → Bool) (a : Gem) : List Gem → List Gem
  | [] => [a]
  | b :: t => if le a b then a :: b :: t else b :: insortGem le a t

/-- Stable sort, the semantics shared by Python's `sorted` (stable, and stable
under `reverse=True`) and the store's sort primitive, which the spec (§4.1)
requires to be "stable with respect to the underlying store's natural
order". -/
def stableSort (le : Gem → Gem → Bool) : List Gem → List Gem
  | [] => []
  | a :: t => insortGem le a (stableSort le t)

/-- `sorted(data, key=lambda x: x[sort_by], reverse=reverse)`. -/
def sortGems (sb : SortBy) (so : SortOrder) (l : List Gem) : List Gem :=
  stableSort (keyLE sb so) l

/-- The in-memory filter of the fallback path, line 121 of `main.py`:
`(not type or g["type"].lower()==type.lower()) and
 (not search or search.lower() in g["name"].lower())`. -/
def memFilter (ty se : Option String) (g : Gem) : Bool :=
  (!pyTruthy ty || pyLowerEq g.type (ty.getD "")) &&
  (!pyTruthy se || pyIn (se.getD "") g.name)

/-- A `{"items": ..., "total": ...}` list response. -/
structure ListResponse where
  items : List Gem
  total : Nat
deriving DecidableEq, Repr

/-- The fallback pipeline of `list_gems` (filter, stable sort, slice), run
over an arbitrary store; `list_gems` itself applies it to `_sample_gems`. -/
def fallbackPipeline (page limit : Nat) (sb : SortBy) (so : SortOrder)
    (ty se : Option String) (store : List Gem) : ListResponse :=
  let data := store.filter (memFilter ty se)
  let data := sortGems sb so data
  let start := (page - 1) * limit
  { items := (data.drop start).take limit, total := data.length }

/-- The `db is None` branch of `list_gems`: the fallback pipeline over the
static sample dataset. -/
def list_gems_fallback (page limit : Nat) (sb : SortBy) (so : SortOrder)
    (ty se : Option String) : ListResponse :=
  fallbackPipeline page limit sb so ty se _sample_gems

/-- One step of case-insensitive matching of a literal-and-dot regex pattern
against a prefix of the subject: `.` matches any character, any other pattern
character matches itself case-insensitively. -/
def dotCIHere (p s : List Char) : Bool :=
  match p, s with
  | [], _ => true
  | _ :: _, [] => false
  | c :: p', d :: s' => (c == '.' || c.toLower == d.toLower) && dotCIHere p' s'

/-- Unanchored case-insensitive matching of a literal-and-dot pattern: the
pattern matches at some position of the subject (Mongo `$regex` without
anchors, `$options: "i"`). -/
def dotCISearch (p s : List Char) : Bool :=
  dotCIHere p s ||
    match s with
    | [] => false
    | _ :: s' => dotCISearch p s'

/-- Fully anchored case-insensitive matching of a literal-and-dot pattern:
pattern and subject have the same length and match position by position
(Mongo `$regex` of the form `^...$`, `$options: "i"`). -/
def dotCIFull (p s : List Char) : Bool :=
  match p, s with
  | [], [] => true
  | [], _ :: _ => false
  | _ :: _, [] => false
  | c :: p', d :: s' => (c == '.' || c.toLower == d.toLower) && dotCIFull p' s'

/-- Semantics of the store's `$regex` operator with `$options: "i"`, for
exactly the pattern shapes `list_gems` builds: an anchored `^...$` pattern is
a full match, any other pattern is searched anywhere in the subject.  Faithful
to the real regex engine only when the inner text is literal characters and
`.`; theorems about caller-supplied filter text carry that restriction. -/
def mongoRegexMatchCI (pat s : List Char) : Bool :=
  match pat with
  | '^' :: rest =>
      if rest.getLast? == some '$' then dotCIFull rest.dropLast s
      else dotCISearch pat s
  | _ => dotCISearch pat s

/-- The query document built by the database path of `list_gems` (lines
128-132): an optional anchored case-insensitive regex on `type` and an
optional unanchored case-insensitive regex on `name`, each stored as its
pattern's character list. -/
structure MongoQuery where
  typeRegex : Option (List Char)
  nameRegex : Option (List Char)
deriving DecidableEq, Repr

/-- `query = {}` then `if type: query["type"] = {"$regex": f"^{type}$", ...}`
and `if search: query["name"] = {"$regex": search, ...}`. -/
def buildQuery (ty se : Option String) : MongoQuery :=
  { typeRegex :=
      if pyTruthy ty then some ('^' :: (ty.getD "").data ++ ['$']) else none,
    nameRegex :=
      if pyTruthy se then some (se.getD "").data else none }

/-- Whether a stored document matches a query document: every field condition
holds (an absent condition holds vacuously). -/
def mongoMatch (q : MongoQuery) (g : Gem) : Bool :=
  (match q.typeRegex with
   | none => true
   | some pat => mongoRegexMatchCI pat g.type.data) &&
  (match q.nameRegex with
   | none => true
   | some pat => mongoRegexMatchCI pat g.name.data)

/-- The database path of `list_gems` (lines 128-148) over an abstract store:
`count_documents(query)` is the filtered length with no sort/skip/limit, and
the cursor `find(query).sort(sort_by, dir).skip((page-1)*limit).limit(limit)`
is filter, stable sort, drop, take.  Document `_id`s are already held in
string form, so the per-document stringification is the identity. -/
def list_gems_db (page limit : Nat) (sb : SortBy) (so : SortOrder)
    (ty se : Option String) (store : List Gem) : ListResponse :=
  let query := buildQuery ty se
  let total := (store.filter (mongoMatch query)).length
  let items :=
    ((sortGems sb so (store.filter (mongoMatch query))).drop
      ((page - 1) * limit)).take limit
  { items := items, total := total }

/-- The error taxonomy of §7, as raised by the handlers. -/
inductive ApiError where
  | invalidId
  | notFound
  | serviceUnavailable
  | authFailure
  | internalError
deriving DecidableEq, Repr

/-- The HTTP status each error surfaces with. -/
def httpStatus : ApiError → Nat
  | .invalidId => 400
  | .notFound => 404
  | .serviceUnavailable => 503
  | .authFailure => 401
  | .internalError => 500

/-- A hexadecimal digit, either case (`bytes.fromhex` accepts both). -/
def isHexDigit (c : Char) : Bool :=
  c.isDigit || ('a' ≤ c && c ≤ 'f') || ('A' ≤ c && c ≤ 'F')

/-- `ObjectId(s)` succeeds on a string exactly when it is 24 hexadecimal
characters. -/
def isValidObjectIdStr (s : String) : Bool :=
  s.length == 24 && s.data.all isHexDigit

/-- `ObjectId(gem_id)` as a parse: `none` models the raised
`InvalidId`/`ValueError`; on success the id is normalised to the lowercase
hex form that `str(ObjectId(...))` produces and that id equality uses. -/
def parseOid (s : String) : Option String :=
  if isValidObjectIdStr s then some (String.mk (lowerL s.data)) else none

/-- `GET /api/gems/{gem_id}` with a database: parse the id (400 on failure),
`find_one({"_id": obj_id})` (404 when none), return the document with its id
stringified. -/
def get_gem_db (store : List Gem) (gem_id : String) : Except ApiError Gem :=
  match parseOid gem_id with
  | none => .error .invalidId
  | some oid =>
    match store.find? (fun g => g._id == oid) with
    | none => .error .notFound
    | some doc => .ok doc

/-- `GET /api/gems/{gem_id}` with `db is None`: linear scan of the sample
dataset on its fixed string ids, 404 when nothing matches. -/
def get_gem_fallback (gem_id : String) : Except ApiError Gem :=
  match _sample_gems.find? (fun g => g._id == gem_id) with
  | some g => .ok g
  | none => .error .notFound

/-- The request body of create/update: the `Gem` schema of `schemas.py`
(no id, no timestamps). -/
structure GemPayload where
  name : String
  type : String
  weight : ℚ
  price : ℚ
  description : String
  certification : Option String
  image : Option String
  gallery : List String
deriving DecidableEq, Repr

/-- `POST /api/gems`: stamp `created_at`/`updated_at` with the same `now`,
insert (the store assigns `assignedId`), and return the stored document with
its id stringified.  The resulting store appends the document. -/
def create_gem (now : Nat) (assignedId : String) (store : List Gem)
    (p : GemPayload) : Gem × List Gem :=
  let g : Gem :=
    { _id := assignedId, name := p.name, type := p.type, weight := p.weight,
      price := p.price, description := p.description,
      certification := p.certification, image := p.image,
      gallery := p.gallery, created_at := some now, updated_at := some now }
  (g, store ++ [g])

/-- The `$set` document of `update_gem`: every payload field plus a fresh
`updated_at`; `_id` and `created_at` are not in the document and keep their
stored values. -/
def applySet (g : Gem) (p : GemPayload) (now : Nat) : Gem :=
  { g with
    name := p.name, type := p.type, weight := p.weight,
    price := p.price, description := p.description,
    certification := p.certification, image := p.image,
    gallery := p.gallery, updated_at := some now }

/-- `update_one({"_id": oid}, {"$set": data})`: rewrite the first matching
document, leave the rest untouched. -/
def updateFirst (oid : String) (p : GemPayload) (now : Nat) :
    List Gem → List Gem
  | [] => []
  | g :: t =>
    if g._id == oid then applySet g p now :: t
    else g :: updateFirst oid p now t

/-- `PUT /api/gems/{gem_id}` with a database: parse the id (400 on failure),
`update_one` with the `$set` document (404 when `matched_count == 0`), then
`find_one` the updated document and return it; the `find_one`-returned-`None`
case would be an unhandled `TypeError` (a 500), shown unreachable below. -/
def update_gem (now : Nat) (store : List Gem) (gem_id : String)
    (p : GemPayload) : Except ApiError (Gem × List Gem) :=
  match parseOid gem_id with
  | none => .error .invalidId
  | some oid =>
    if store.all (fun g => !(g._id == oid)) then .error .notFound
    else
      let store' := updateFirst oid p now store
      match store'.find? (fun g => g._id == oid) with
      | some doc => .ok (doc, store')
      | none => .error .internalError

/-- The response of `POST /api/seed`. -/
inductive SeedResponse where
  | notAvailable
  | alreadySeeded
  | seededNow
deriving DecidableEq, Repr

/-- The documents `seed_data` inserts when the collection is empty: the
sample records with their `_id` popped (the store then assigns `freshIds`
positionally) and `created_at`/`updated_at` both set to the one shared
`now`. -/
def seedDocs (now : Nat) (freshIds : List String) : List Gem :=
  List.zipWith
    (fun g fid =>
      { g with
        _id := fid, created_at := some now, updated_at := some now })
    _sample_gems freshIds

/-- `POST /api/seed`: report-only when `db is None`; a no-op when
`count_documents({}) > 0`; otherwise `insert_many` of the sample records with
ids stripped and one shared timestamp.  Returns the response and the store
afterwards (`none` when there is no database). -/
def seed_data (now : Nat) (freshIds : List String) :
    Option (List Gem) → SeedResponse × Option (List Gem)
  | none => (.notAvailable, none)
  | some store =>
    if store.length > 0 then (.alreadySeeded, some store)
    else (.seededNow, some (seedDocs now freshIds))

/-- `POST /api/admin/login`: compare against
`os.getenv("ADMIN_PASSWORD", "admin123")` and return the static token on a
match, else 401. -/
def admin_login (adminPasswordEnv : Option String) (password : String) :
    Except ApiError String :=
  let admin_password := adminPasswordEnv.getD "admin123"
  if password == admin_password then .ok "admin-token"
  else .error .authFailure

/-- The regex-special characters of the `$regex` engine; filter text avoiding
all of them is matched purely literally. -/
def regexSpecials : List Char :=
  ['.', '*', '+', '?', '[', ']', '(', ')', '\x7b', '\x7d', '\\', '|',
   '^', '$']

/-- Filter text that the regex engine treats as a literal string. -/
def regexLiteralStr (s : String) : Bool :=
  s.data.all (fun c => !regexSpecials.contains c)

/-- An absent-or-literal optional filter parameter. -/
def optLiteral : Option String → Bool
  | none => true
  | some s => regexLiteralStr s

/-- A store document whose `type` strictly extends a filter value, used to
exercise the regex corner of the type filter. -/
def rubellite : Gem :=
  { _id := "64b0c0ffee0123456789abcd", name := "Rose Rubellite",
    type := "Rubellite", weight := mkRat 38 10, price := 3200,
    description := "A rose-toned rubellite tourmaline of fine clarity.",
    certification := none, image := none, gallery := [] }

/-- A concrete well-formed create/update payload. -/
def spinelPayload : GemPayload :=
  { name := "Test Spinel", type := "Spinel", weight := mkRat 21 10,
    price := 900, description := "A vivid red spinel for testing.",
    certification := none, image := none, gallery := [] }

/-- A second concrete payload, distinct from `spinelPayload`. -/
def garnetPayload : GemPayload :=
  { name := "Test Garnet", type := "Garnet", weight := mkRat 19 10,
    price := 450, description := "A deep green tsavorite garnet.",
    certification := some "GIA Certified", image := none, gallery := [] }

/-! ### Helper lemmas -/

theorem containsSub_nil (h : List Char) : containsSub [] h = true := by
  cases h <;> simp [containsSub, List.isPrefixOf]

theorem listChar_beq_comm (a b : List Char) : (a == b) = (b == a) := by
  by_cases h : a = b
  · subst h; rfl
  · rw [beq_eq_false_iff_ne.mpr h, beq_eq_false_iff_ne.mpr (Ne.symm h)]

theorem lowerL_cons (c : Char) (l : List Char) :
    lowerL (c :: l) = c.toLower :: lowerL l := rfl

theorem length_insortGem (le : Gem → Gem → Bool) (a : Gem) (l : List Gem) :
    (insortGem le a l).length = l.length + 1 := by
  induction l with
  | nil => rfl
  | cons b t ih =>

    cases h : le a b <;> simp [insortGem, h, ih]

theorem length_stableSort (le : Gem → Gem → Bool) (l : List Gem) :
    (stableSort le l).length = l.length := by
  induction l with
  | nil => rfl
  | cons a t ih => simp [stableSort, length_insortGem, ih]

theorem mem_insortGem (le : Gem → Gem → Bool) (a x : Gem) (l : List Gem) :
    x ∈ insortGem le a l ↔ x = a ∨ x ∈ l := by
  induction l with
  | nil => simp [insortGem]
  | cons b t ih =>
    cases h : le a b
    · simp only [insortGem, h, Bool.false_eq_true, if_neg, not_false_iff,
        List.mem_cons, ih]
      tauto
    · simp [insortGem, h]

theorem pairwise_insortGem (le : Gem → Gem → Bool)
    (htrans : ∀ a b c, le a b = true → le b c = true → le a c = true)
    (htot : ∀ a b, le a b = true ∨ le b a = true)
    (a : Gem) (l : List Gem)
    (h : List.Pairwise (fun x y => le x y = true) l) :
    List.Pairwise (fun x y => le x y = true) (insortGem le a l) := by
  induction l with
  | nil => simp [insortGem]
  | cons b t ih =>
    rcases List.pairwise_cons.mp h with ⟨hb, ht⟩
    cases hle : le a b with
    | true =>
      simp only [insortGem, hle, if_pos]
      refine List.pairwise_cons.mpr ⟨?_, h⟩
      intro x hx
      rcases List.mem_cons.mp hx with rfl | hx
      · exact hle
      · exact htrans a b x hle (hb x hx)
    | false =>
      simp only [insortGem, hle, Bool.false_eq_true, if_neg, not_false_iff]
      refine List.pairwise_cons.mpr ⟨?_, ih ht⟩
      intro x hx
      rcases (mem_insortGem le a x t).mp hx with rfl | hx
      · rcases htot x b with hxb | hbx
        · exact absurd hxb (by simp [hle])
        · exact hbx
      · exact hb x hx

theorem pairwise_stableSort (le : Gem → Gem → Bool)
    (htrans : ∀ a b c, le a b = true → le b c = true → le a c = true)
    (htot : ∀ a b, le a b = true ∨ le b a = true)
    (l : List Gem) :
    List.Pairwise (fun x y => le x y = true) (stableSort le l) := by
  induction l with
  | nil => simp [stableSort]
  | cons a t ih => exact pairwise_insortGem le htrans htot a _ ih

theorem keyLE_trans (sb : SortBy) (so : SortOrder) (a b c : Gem)
    (h1 : keyLE sb so a b = true) (h2 : keyLE sb so b c = true) :
    keyLE sb so a c = true := by
  cases so <;> simp only [keyLE, decide_eq_true_eq] at h1 h2 ⊢
  · exact le_trans h1 h2
  · exact le_trans h2 h1

theorem keyLE_total (sb : SortBy) (so : SortOrder) (a b : Gem) :
    keyLE sb so a b = true ∨ keyLE sb so b a = true := by
  cases so <;> simp only [keyLE, decide_eq_true_eq] <;>
    exact le_total _ _

theorem dotCIFull_literal (p : List Char) (hp : '.' ∉ p) (s : List Char) :
    dotCIFull p s = (lowerL p == lowerL s) := by
  induction p generalizing s with
  | nil => cases s <;> simp [dotCIFull, lowerL]
  | cons c p' ih =>
    have hc : (c == '.') = false :=
      beq_eq_false_iff_ne.mpr (fun h => hp (h ▸ List.mem_cons_self c p'))
    have hp' : '.' ∉ p' := fun h => hp (List.mem_cons_of_mem c h)
    cases s with
    | nil => simp [dotCIFull, lowerL]
    | cons d s' =>
      simp [dotCIFull, hc, ih hp', lowerL_cons, List.cons_beq_cons]

theorem dotCIHere_literal (p : List Char) (hp : '.' ∉ p) (s : List Char) :
    dotCIHere p s = List.isPrefixOf (lowerL p) (lowerL s) := by
  induction p generalizing s with
  | nil => cases s <;> simp [dotCIHere, lowerL, List.isPrefixOf]
  | cons c p' ih =>
    have hc : (c == '.') = false :=
      beq_eq_false_iff_ne.mpr (fun h => hp (h ▸ List.mem_cons_self c p'))
    have hp' : '.' ∉ p' := fun h => hp (List.mem_cons_of_mem c h)
    cases s with
    | nil => simp [dotCIHere, lowerL, List.isPrefixOf]
    | cons d s' =>
      simp [dotCIHere, hc, ih hp', lowerL, List.isPrefixOf]

theorem dotCISearch_literal (p : List Char) (hp : '.' ∉ p) (s : List Char) :
    dotCISearch p s = containsSub (lowerL p) (lowerL s) := by
  induction s with
  | nil =>
    cases p with
    | nil => simp [dotCISearch, dotCIHere, containsSub, lowerL]
    | cons c p' => simp [dotCISearch, dotCIHere, containsSub, lowerL]
  | cons d s' ih =>
    simp only [dotCISearch, dotCIHere_literal p hp, lowerL_cons]
    rw [show containsSub (lowerL p) (Char.toLower d :: lowerL s') =
        (List.isPrefixOf (lowerL p) (Char.toLower d :: lowerL s') ||
          containsSub (lowerL p) (lowerL s')) from rfl]
    rw [ih]

theorem regexLiteral_no_dot (t : String) (h : regexLiteralStr t = true) :
    '.' ∉ t.data := by
  intro hmem
  have := (List.all_eq_true.mp h) '.' hmem
  simp [regexSpecials] at this

theorem mongoRegexMatchCI_anchored (t : String) (s : List Char) :
    mongoRegexMatchCI ('^' :: t.data ++ ['$']) s = dotCIFull t.data s := by
  simp [mongoRegexMatchCI, List.getLast?_concat, List.dropLast_concat]

theorem mongoMatch_eq_memFilter (ty se : Option String)
    (hty : optLiteral ty = true) (hse : optLiteral se = true) (g : Gem) :
    mongoMatch (buildQuery ty se) g = memFilter ty se g := by
  have htypart :
      (match (buildQuery ty se).typeRegex with
       | none => true
       | some pat => mongoRegexMatchCI pat g.type.data) =
      (!pyTruthy ty || pyLowerEq g.type (ty.getD "")) := by
    cases hv : pyTruthy ty with
    | false => simp [buildQuery, hv]
    | true =>
      cases ty with
      | none => simp [pyTruthy] at hv
      | some t =>
        have hlit : regexLiteralStr t = true := hty
        simp only [buildQuery, hv, if_pos, Option.getD_some, Bool.not_true,
          Bool.false_or]
        rw [mongoRegexMatchCI_anchored t g.type.data,
          dotCIFull_literal t.data (regexLiteral_no_dot t hlit) g.type.data,
          pyLowerEq, listChar_beq_comm]
  have hsepart :
      (match (buildQuery ty se).nameRegex with
       | none => true
       | some pat => mongoRegexMatchCI pat g.name.data) =
      (!pyTruthy se || pyIn (se.getD "") g.name) := by
    cases hv : pyTruthy se with
    | false => simp [buildQuery, hv]
    | true =>
      cases se with
      | none => simp [pyTruthy] at hv
      | some s =>
        have hlit : regexLiteralStr s = true := hse
        have hnodot : '.' ∉ s.data := regexLiteral_no_dot s hlit
        have hnocaret : s.data.head? ≠ some '^' := by
          intro hh
          cases hd : s.data with
          | nil => simp [hd] at hh
          | cons c rest =>
            rw [hd] at hh
            have : c = '^' := by simpa using hh
            have : '^' ∈ s.data := by rw [hd, this]; exact List.mem_cons_self _ _
            have := (List.all_eq_true.mp hlit) '^' this
            simp [regexSpecials] at this
        simp only [buildQuery, hv, if_pos, Option.getD_some, Bool.not_true,
          Bool.false_or]
        have hshape : mongoRegexMatchCI s.data g.name.data =
            dotCISearch s.data g.name.data := by
          cases hd : s.data with
          | nil => simp [mongoRegexMatchCI, dotCISearch, dotCIHere]
          | cons c rest =>
            have hc : c ≠ '^' := by
              intro h; exact hnocaret (by simp [hd, h])
            simp only [mongoRegexMatchCI]
            split
            · next heq =>
              exfalso
              cases heq
              exact hc rfl
            · rfl
        rw [hshape, dotCISearch_literal s.data hnodot g.name.data]
        rfl
  simp only [mongoMatch]
  rw [htypart, hsepart]
  rfl

/-! ### Claim theorems -/

/-- C1: for every list request whose filter values are plain literal text
(so that the database's anchored/unanchored case-insensitive regexes denote
the same predicate as the in-memory comparisons), the database-backed
execution path and the in-memory fallback pipeline produce identical
`{items, total}` responses over the same store; and the fallback path is
exactly that pipeline run over the 6-record sample dataset. -/
theorem list_paths_equivalent (page limit : Nat) (sb : SortBy)
    (so : SortOrder) (ty se : Option String)
    (hty : optLiteral ty = true) (hse : optLiteral se = true)
    (store : List Gem) :
    list_gems_db page limit sb so ty se store =
      fallbackPipeline page limit sb so ty se store ∧
    list_gems_fallback page limit sb so ty se =
      fallbackPipeline page limit sb so ty se _sample_gems := by
  refine ⟨?_, rfl⟩
  have hf : store.filter (mongoMatch (buildQuery ty se)) =
      store.filter (memFilter ty se) :=
    List.filter_congr (fun g _ => mongoMatch_eq_memFilter ty se hty hse g)
  simp only [list_gems_db, fallbackPipeline, hf, sortGems, length_stableSort]

/-- Witness for C1 at a concrete request over the sample data. -/
theorem list_paths_equivalent_witness :
    list_gems_db 1 12 .price .asc (some "Ruby") (some "gold") _sample_gems =
      fallbackPipeline 1 12 .price .asc (some "Ruby") (some "gold")
        _sample_gems :=
  (list_paths_equivalent 1 12 .price .asc (some "Ruby") (some "gold")
    (by decide) (by decide) _sample_gems).1

/-- C2: for every valid list request (`page ≥ 1`, `limit ∈ [1,100]`), on both
paths the returned `items` are exactly the contiguous slice of the
filtered-then-sorted result starting at offset `(page-1)*limit`, have length
at most `limit`, and a page wholly past the end yields `[]`. -/
theorem list_pagination_correct (page limit : Nat) (sb : SortBy)
    (so : SortOrder) (ty se : Option String) (store : List Gem)
    (_hpage : 1 ≤ page) (_hlim1 : 1 ≤ limit) (_hlim2 : limit ≤ 100) :
    ((list_gems_fallback page limit sb so ty se).items.length ≤ limit ∧
      (list_gems_fallback page limit sb so ty se).items =
        ((sortGems sb so (_sample_gems.filter (memFilter ty se))).drop
          ((page - 1) * limit)).take limit ∧
      ((sortGems sb so (_sample_gems.filter (memFilter ty se))).length ≤
          (page - 1) * limit →
        (list_gems_fallback page limit sb so ty se).items = [])) ∧
    ((list_gems_db page limit sb so ty se store).items.length ≤ limit ∧
      (list_gems_db page limit sb so ty se store).items =
        ((sortGems sb so
            (store.filter (mongoMatch (buildQuery ty se)))).drop
          ((page - 1) * limit)).take limit ∧
      ((sortGems sb so
            (store.filter (mongoMatch (buildQuery ty se)))).length ≤
          (page - 1) * limit →
        (list_gems_db page limit sb so ty se store).items = [])) := by
  refine ⟨⟨List.length_take_le _ _, rfl, ?_⟩,
    ⟨List.length_take_le _ _, rfl, ?_⟩⟩
  · intro h
    show ((sortGems sb so (_sample_gems.filter (memFilter ty se))).drop
      ((page - 1) * limit)).take limit = []
    rw [List.drop_eq_nil_of_le h, List.take_nil]
  · intro h
    show ((sortGems sb so
        (store.filter (mongoMatch (buildQuery ty se)))).drop
      ((page - 1) * limit)).take limit = []
    rw [List.drop_eq_nil_of_le h, List.take_nil]

/-- Witness for C2: a page past the end of the sample data is empty. -/
theorem list_pagination_correct_witness :
    (list_gems_fallback 7 12 SortBy.price SortOrder.asc none none).items
      = [] := by
  have h := list_pagination_correct 7 12 SortBy.price SortOrder.asc none none
    [] (by decide) (by decide) (by decide)
  exact h.1.2.2 (by decide)

/-- C10: the admin login returns the static token exactly when the submitted
password equals the configured secret, which is the `ADMIN_PASSWORD`
environment value or the hardcoded default `"admin123"` when unset;
anything else is an authentication failure with HTTP 401. -/
theorem admin_login_correct (env : Option String) (password : String) :
    (admin_login env password = .ok "admin-token" ↔
      password = env.getD "admin123") ∧
    (password ≠ env.getD "admin123" →
      admin_login env password = .error .authFailure) ∧
    admin_login none "admin123" = .ok "admin-token" ∧
    httpStatus .authFailure = 401 := by
  refine ⟨?_, ?_, rfl, rfl⟩
  · by_cases h : password = env.getD "admin123" <;>
      simp [admin_login, h]
  · intro h
    simp [admin_login, h]

/-- Witness for C10 at a concrete non-matching password. -/
theorem admin_login_correct_witness :
    admin_login (some "s3cret") "nope" = .error .authFailure :=
  (admin_login_correct (some "s3cret") "nope").2.1 (by decide)

/-- C3 counterexample: the database path builds its anchored case-insensitive
regex from the raw filter value, so a value containing regex metacharacters
is not matched as literal text: the filter `type="Rub......"` admits the
stored record of type `"Rubellite"`, whose type does not equal `"Rub......"`
case-insensitively. -/
theorem type_filter_exact_match_counterexample :
    (list_gems_db 1 12 SortBy.price SortOrder.asc (some "Rub......") none
        [rubellite]).items = [rubellite] ∧
    pyLowerEq rubellite.type "Rub......" = false := by
  constructor
  · decide
  · decide

/-- C3 (amended): for a type filter whose value is nonempty and free of
regex-special characters, a record passes the filter - on the in-memory path
and on the database path alike - exactly when its `type` field equals the
value case-insensitively as a full match; and `type="Ruby"` on the sample
dataset returns only the record of type `"Ruby"`. -/
theorem type_filter_exact_match (t : String) (ht : t ≠ "")
    (hlit : regexLiteralStr t = true) (g : Gem) :
    memFilter (some t) none g = pyLowerEq g.type t ∧
    mongoMatch (buildQuery (some t) none) g = pyLowerEq g.type t ∧
    (list_gems_fallback 1 12 SortBy.price SortOrder.asc (some "Ruby")
        none).items.map Gem.name = ["Imperial Ruby"] := by
  have hmem : memFilter (some t) none g = pyLowerEq g.type t := by
    have hne : t.isEmpty = false := by
      cases hi : t.isEmpty
      · rfl
      · exact absurd ((String.isEmpty_iff t).mp hi) ht
    simp [memFilter, pyTruthy, hne, pyIn]
  refine ⟨hmem, ?_, by decide⟩
  rw [mongoMatch_eq_memFilter (some t) none hlit rfl g]
  exact hmem

/-- Witness for C3's amended theorem at the filter value `"Ruby"`. -/
theorem type_filter_exact_match_witness :
    memFilter (some "Ruby") none rubellite =
      pyLowerEq rubellite.type "Ruby" ∧
    (list_gems_fallback 1 12 SortBy.price SortOrder.asc (some "Ruby")
        none).items.map Gem.name = ["Imperial Ruby"] :=
  ⟨(type_filter_exact_match "Ruby" (by decide) (by decide) rubellite).1,
   (type_filter_exact_match "Ruby" (by decide) (by decide) rubellite).2.2⟩

/-- C4: on the in-memory path, a record passes a present search filter
exactly when its `name` contains the value as a substring
case-insensitively; a present type filter and a present search filter
combine by logical AND; absent filters impose no constraint; and
`search="gold"` matches `"Golden Topaz"` but not `"Azure Sapphire"`. -/
theorem search_filter_substring (s : String) (ty : Option String) (g : Gem) :
    memFilter none (some s) g = pyIn s g.name ∧
    memFilter ty (some s) g =
      (memFilter ty none g && memFilter none (some s) g) ∧
    memFilter none none g = true ∧
    pyIn "gold" "Golden Topaz" = true ∧
    pyIn "gold" "Azure Sapphire" = false ∧
    (list_gems_fallback 1 12 SortBy.price SortOrder.asc none
        (some "gold")).items.map Gem.name = ["Golden Topaz"] := by
  refine ⟨?_, ?_, rfl, by decide, by decide, by decide⟩
  · by_cases hs : s = ""
    · subst hs
      simp [memFilter, pyTruthy, pyIn, lowerL, containsSub_nil]
    · have hne : s.isEmpty = false := by
        cases hi : s.isEmpty
        · rfl
        · exact absurd ((String.isEmpty_iff s).mp hi) hs
      simp [memFilter, pyTruthy, hne]
  · simp [memFilter, pyTruthy, Bool.and_assoc]

/-- C5: on both paths the returned page is ordered by the chosen sort key in
the chosen direction; on the sample dataset, weight-ascending runs from
`Crystalline Diamond` (1.3) to `Amethyst Royale` (6.3) and weight-descending
is its exact reverse. -/
theorem list_sorting_correct :
    (∀ (page limit : Nat) (sb : SortBy) (so : SortOrder)
        (ty se : Option String) (store : List Gem),
      List.Pairwise (fun a b => keyLE sb so a b = true)
        (list_gems_db page limit sb so ty se store).items ∧
      List.Pairwise (fun a b => keyLE sb so a b = true)
        (list_gems_fallback page limit sb so ty se).items) ∧
    (list_gems_fallback 1 12 SortBy.weight SortOrder.asc none
        none).items.map Gem.name =
      ["Crystalline Diamond", "Imperial Ruby", "Azure Sapphire",
       "Verdant Emerald", "Golden Topaz", "Amethyst Royale"] ∧
    (list_gems_fallback 1 12 SortBy.weight SortOrder.desc none none).items =
      (list_gems_fallback 1 12 SortBy.weight SortOrder.asc none
        none).items.reverse := by
  refine ⟨?_, by decide, by decide⟩
  intro page limit sb so ty se store
  have hsorted : ∀ l : List Gem,
      List.Pairwise (fun a b => keyLE sb so a b = true) (sortGems sb so l) :=
    fun l => pairwise_stableSort _ (keyLE_trans sb so) (keyLE_total sb so) l
  constructor
  · exact List.Pairwise.sublist
      ((List.take_sublist _ _).trans (List.drop_sublist _ _)) (hsorted _)
  · exact List.Pairwise.sublist
      ((List.take_sublist _ _).trans (List.drop_sublist _ _)) (hsorted _)

/-- C6: on both paths the `total` of a list response is the number of records
matching the filter before any pagination, and is therefore independent of
`page` and `limit` (and of the sort). -/
theorem list_total_prefilter (page limit page' limit' : Nat)
    (sb sb' : SortBy) (so so' : SortOrder) (ty se : Option String)
    (store : List Gem) :
    (list_gems_db page limit sb so ty se store).total =
      (store.filter (mongoMatch (buildQuery ty se))).length ∧
    (list_gems_fallback page limit sb so ty se).total =
      (_sample_gems.filter (memFilter ty se)).length ∧
    (list_gems_db page limit sb so ty se store).total =
      (list_gems_db page' limit' sb' so' ty se store).total ∧
    (list_gems_fallback page limit sb so ty se).total =
      (list_gems_fallback page' limit' sb' so' ty se).total := by
  refine ⟨rfl, ?_, rfl, ?_⟩
  · simp [list_gems_fallback, fallbackPipeline, sortGems, length_stableSort]
  · simp [list_gems_fallback, fallbackPipeline, sortGems, length_stableSort]

/-- C7: with a database, get-by-id fails 400 exactly when the identifier
cannot be parsed as an ObjectId (24 hex characters), and 404 when a
well-formed identifier matches no stored document; without a database it
scans the sample dataset by its fixed string ids, returns a match when one
exists, and otherwise fails 404 - never 400 - whatever the identifier. -/
theorem get_gem_error_classification (store : List Gem) (gem_id : String) :
    (get_gem_db store gem_id = .error .invalidId ↔
      parseOid gem_id = none) ∧
    (parseOid gem_id = none ↔ isValidObjectIdStr gem_id = false) ∧
    (∀ oid, parseOid gem_id = some oid →
      store.find? (fun g => g._id == oid) = none →
      get_gem_db store gem_id = .error .notFound) ∧
    (∀ oid doc, parseOid gem_id = some oid →
      store.find? (fun g => g._id == oid) = some doc →
      get_gem_db store gem_id = .ok doc) ∧
    (∀ g, _sample_gems.find? (fun x => x._id == gem_id) = some g →
      get_gem_fallback gem_id = .ok g) ∧
    (_sample_gems.find? (fun x => x._id == gem_id) = none →
      get_gem_fallback gem_id = .error .notFound) ∧
    get_gem_fallback gem_id ≠ .error .invalidId ∧
    httpStatus .invalidId = 400 ∧ httpStatus .notFound = 404 := by
  refine ⟨?_, ?_, ?_, ?_, ?_, ?_, ?_, rfl, rfl⟩
  · cases hp : parseOid gem_id with
    | none => simp [get_gem_db, hp]
    | some oid =>
      cases hf : store.find? (fun g => g._id == oid) <;>
        simp [get_gem_db, hp, hf]
  · rw [parseOid]
    cases hv : isValidObjectIdStr gem_id <;> simp [hv]
  · intro oid hp hf
    simp [get_gem_db, hp, hf]
  · intro oid doc hp hf
    simp [get_gem_db, hp, hf]
  · intro g hf
    simp [get_gem_fallback, hf]
  · intro hf
    simp [get_gem_fallback, hf]
  · cases hf : _sample_gems.find? (fun x => x._id == gem_id) <;>
      simp [get_gem_fallback, hf]

/-- Witness for C7: a malformed id 400s on the database path, and an unknown
id 404s (not 400s) on the fallback path. -/
theorem get_gem_error_classification_witness :
    get_gem_db [] "zzz" = .error .invalidId ∧
    get_gem_fallback "sg-0" = .error .notFound := by
  have h1 := get_gem_error_classification [] "zzz"
  have h2 := get_gem_error_classification [] "sg-0"
  exact ⟨h1.1.mpr (by decide), h2.2.2.2.2.2.1 (by decide)⟩

theorem find?_by_id_append_singleton (store : List Gem) (g : Gem)
    (oid : String) (hstore : ∀ h ∈ store, (h._id == oid) = false)
    (hg : (g._id == oid) = true) :
    (store ++ [g]).find? (fun x => x._id == oid) = some g := by
  rw [List.find?_append,
    List.find?_eq_none.mpr (fun x hx => by simp [hstore x hx]),
    List.find?_cons_of_pos ([] : List Gem) hg]
  rfl

theorem updateFirst_append_singleton (store : List Gem) (g : Gem)
    (oid : String) (p : GemPayload) (now : Nat)
    (hstore : ∀ h ∈ store, (h._id == oid) = false)
    (hg : (g._id == oid) = true) :
    updateFirst oid p now (store ++ [g]) = store ++ [applySet g p now] := by
  induction store with
  | nil => simp [updateFirst, hg]
  | cons a t ih =>
    have ha := hstore a (List.mem_cons_self a t)
    simp only [List.cons_append, updateFirst, ha, Bool.false_eq_true,
      if_neg, not_false_iff, List.cons.injEq, true_and]
    exact ih (fun x hx => hstore x (List.mem_cons_of_mem a hx))

/-- C8: creating a record stamps `created_at` and `updated_at` with the same
instant; updating it afterwards succeeds, overwrites every payload field,
refreshes `updated_at` to the new instant, and leaves `created_at` and the
identifier unchanged. -/
theorem create_then_update_timestamps (now1 now2 : Nat) (store : List Gem)
    (p p' : GemPayload) (nid : String)
    (hvalid : isValidObjectIdStr nid = true)
    (hlower : String.mk (lowerL nid.data) = nid)
    (hfresh : ∀ h ∈ store, h._id ≠ nid) :
    (create_gem now1 nid store p).1.created_at = some now1 ∧
    (create_gem now1 nid store p).1.updated_at = some now1 ∧
    (create_gem now1 nid store p).1.created_at =
      (create_gem now1 nid store p).1.updated_at ∧
    (create_gem now1 nid store p).1._id = nid ∧
    update_gem now2 (create_gem now1 nid store p).2 nid p' =
      .ok (applySet (create_gem now1 nid store p).1 p' now2,
        store ++ [applySet (create_gem now1 nid store p).1 p' now2]) ∧
    (applySet (create_gem now1 nid store p).1 p' now2).created_at =
      some now1 ∧
    (applySet (create_gem now1 nid store p).1 p' now2).updated_at =
      some now2 ∧
    (applySet (create_gem now1 nid store p).1 p' now2)._id = nid ∧
    (applySet (create_gem now1 nid store p).1 p' now2).name = p'.name ∧
    (applySet (create_gem now1 nid store p).1 p' now2).type = p'.type ∧
    (applySet (create_gem now1 nid store p).1 p' now2).weight = p'.weight ∧
    (applySet (create_gem now1 nid store p).1 p' now2).price = p'.price ∧
    (applySet (create_gem now1 nid store p).1 p' now2).description =
      p'.description ∧
    (applySet (create_gem now1 nid store p).1 p' now2).certification =
      p'.certification ∧
    (applySet (create_gem now1 nid store p).1 p' now2).image = p'.image ∧
    (applySet (create_gem now1 nid store p).1 p' now2).gallery =
      p'.gallery := by
  have hg : ((create_gem now1 nid store p).1._id == nid) = true := by
    simp [create_gem]
  have hg' : ((applySet (create_gem now1 nid store p).1 p' now2)._id == nid)
      = true := by
    simp [create_gem, applySet]
  have hstoreF : ∀ h ∈ store, (h._id == nid) = false :=
    fun h hh => beq_eq_false_iff_ne.mpr (hfresh h hh)
  have hp : parseOid nid = some nid := by
    simp [parseOid, hvalid, hlower]
  have hall : ((store ++ [(create_gem now1 nid store p).1]).all
      (fun x => !(x._id == nid))) = false := by
    simp [List.all_append, hg]
  refine ⟨rfl, rfl, rfl, rfl, ?_, rfl, rfl, rfl, rfl, rfl, rfl, rfl, rfl,
    rfl, rfl, rfl⟩
  show update_gem now2
      (store ++ [(create_gem now1 nid store p).1]) nid p' = _
  rw [update_gem, hp]
  simp only [hall, Bool.false_eq_true, if_neg, not_false_iff]
  rw [updateFirst_append_singleton store _ nid p' now2 hstoreF hg,
    find?_by_id_append_singleton store _ nid hstoreF hg']

/-- Witness for C8 with a concrete payload, id and instants. -/
theorem create_then_update_timestamps_witness :
    (create_gem 1 "0123456789abcdef01234567" [] spinelPayload).1.created_at
        = some 1 ∧
    update_gem 2 (create_gem 1 "0123456789abcdef01234567" []
        spinelPayload).2 "0123456789abcdef01234567" garnetPayload =
      .ok (applySet (create_gem 1 "0123456789abcdef01234567" []
            spinelPayload).1 garnetPayload 2,
        [] ++ [applySet (create_gem 1 "0123456789abcdef01234567" []
            spinelPayload).1 garnetPayload 2]) ∧
    (applySet (create_gem 1 "0123456789abcdef01234567" []
        spinelPayload).1 garnetPayload 2).created_at = some 1 ∧
    (applySet (create_gem 1 "0123456789abcdef01234567" []
        spinelPayload).1 garnetPayload 2).updated_at = some 2 := by
  have h := create_then_update_timestamps 1 2 [] spinelPayload garnetPayload
    "0123456789abcdef01234567" (by decide) (by decide)
    (by intro x hx; exact absurd hx (List.not_mem_nil x))
  exact ⟨h.1, h.2.2.2.2.1, h.2.2.2.2.2.1, h.2.2.2.2.2.2.1⟩

theorem valid_oid_not_sample_id (fid : String)
    (h : isValidObjectIdStr fid = true) :
    fid ∉ _sample_gems.map Gem._id := by
  intro hmem
  simp only [isValidObjectIdStr, Bool.and_eq_true] at h
  have hlen24 : fid.length = 24 := by simpa using h.1
  have hm : fid ∈ ["sg-1", "sg-2", "sg-3", "sg-4", "sg-5", "sg-6"] := by
    simpa [_sample_gems] using hmem
  simp only [List.mem_cons, List.not_mem_nil, or_false] at hm
  rcases hm with rfl | rfl | rfl | rfl | rfl | rfl <;>
    exact absurd hlen24 (by decide)

/-- C9: the seed operation is a no-op reporting "already seeded" on a
populated collection, reports "not seeded" without error when no database is
available, and on an empty collection inserts exactly the 6 sample records
with the fixed sample ids stripped (the store-assigned ObjectIds can never
equal them) and both timestamps set to one shared instant. -/
theorem seed_idempotent (now : Nat) (freshIds : List String)
    (store : List Gem) (hne : store ≠ []) (hlen : freshIds.length = 6)
    (hvalid : ∀ fid ∈ freshIds, isValidObjectIdStr fid = true) :
    seed_data now freshIds none = (.notAvailable, none) ∧
    seed_data now freshIds (some store) = (.alreadySeeded, some store) ∧
    seed_data now freshIds (some []) =
      (.seededNow, some (seedDocs now freshIds)) ∧
    (seedDocs now freshIds).length = 6 ∧
    (∀ g ∈ seedDocs now freshIds,
      g.created_at = some now ∧ g.updated_at = some now) ∧
    (seedDocs now freshIds).map Gem._id = freshIds ∧
    (seedDocs now freshIds).map Gem.name = _sample_gems.map Gem.name ∧
    (∀ g ∈ seedDocs now freshIds, g._id ∉ _sample_gems.map Gem._id) := by
  have hids : ∃ a b c d e f, freshIds = [a, b, c, d, e, f] := by
    rcases freshIds with _ | ⟨a, _ | ⟨b, _ | ⟨c, _ | ⟨d, _ | ⟨e, _ |
        ⟨f, _ | ⟨x, t⟩⟩⟩⟩⟩⟩⟩ <;> simp only [List.length] at hlen <;>
      first
        | omega
        | exact ⟨a, b, c, d, e, f, rfl⟩
  obtain ⟨a, b, c, d, e, f, rfl⟩ := hids
  have hpos : 0 < store.length := List.length_pos.mpr hne
  refine ⟨rfl, ?_, rfl, rfl, ?_, rfl, rfl, ?_⟩
  · simp [seed_data, hpos]
  · intro g hg
    simp only [seedDocs, _sample_gems, List.zipWith, List.mem_cons,
      List.not_mem_nil, or_false] at hg
    rcases hg with rfl | rfl | rfl | rfl | rfl | rfl <;> exact ⟨rfl, rfl⟩
  · intro g hg
    simp only [seedDocs, _sample_gems, List.zipWith, List.mem_cons,
      List.not_mem_nil, or_false] at hg
    rcases hg with rfl | rfl | rfl | rfl | rfl | rfl
    · exact valid_oid_not_sample_id a (hvalid a (by simp))
    · exact valid_oid_not_sample_id b (hvalid b (by simp))
    · exact valid_oid_not_sample_id c (hvalid c (by simp))
    · exact valid_oid_not_sample_id d (hvalid d (by simp))
    · exact valid_oid_not_sample_id e (hvalid e (by simp))
    · exact valid_oid_not_sample_id f (hvalid f (by simp))

/-- Witness for C9 at a concrete instant, id list and populated store. -/
theorem seed_idempotent_witness :
    seed_data 5
      ["0000000000000000000000a1", "0000000000000000000000a2",
       "0000000000000000000000a3", "0000000000000000000000a4",
       "0000000000000000000000a5", "0000000000000000000000a6"]
      (some [rubellite]) = (.alreadySeeded, some [rubellite]) ∧
    (seedDocs 5
      ["0000000000000000000000a1", "0000000000000000000000a2",
       "0000000000000000000000a3", "0000000000000000000000a4",
       "0000000000000000000000a5", "0000000000000000000000a6"]).map Gem._id
      =
      ["0000000000000000000000a1", "0000000000000000000000a2",
       "0000000000000000000000a3", "0000000000000000000000a4",
       "0000000000000000000000a5", "0000000000000000000000a6"] := by
  have h := seed_idempotent 5
    ["0000000000000000000000a1", "0000000000000000000000a2",
     "0000000000000000000000a3", "0000000000000000000000a4",
     "0000000000000000000000a5", "0000000000000000000000a6"]
    [rubellite] (by simp) (by decide) (by decide)
  exact ⟨h.2.1, h.2.2.2.2.2.1⟩
